import Mathlib

/-!
Verification of the collection core of `src/database/musinsa_crawler.py`
(functions `extract_product_info`, lines 65-114, and `crawl_musinsa`,
lines 116-241) against its natural-language specification.

The crawler is embedded shallowly: a raw rendered item handle becomes a
`RawItem` recording what each CSS lookup of the source would observe, the
browser session becomes an `Env` describing what every `find_elements`
call returns (or which call raises), and the `while` loop becomes the
structurally recursive `loop` driven by fuel that is proved sufficient
(`loop_not_outOfFuel`), so the fuel adds no behavior.
-/

set_option maxHeartbeats 1000000

namespace FashionSmartSearch

/-- One harvested product record: the dict built by `extract_product_info`
(musinsa_crawler.py lines 65-114). `none` is Python's `None`. -/
structure ProductData where
  product_url : Option String
  brand_name : Option String
  product_name : Option String
  price : Option String
  image_url : Option String
  deriving DecidableEq, Repr

/-- One raw rendered item handle, as the crawler's per-item CSS lookups see
it.  An outer `none` models a missing element (`find_element` raising
`NoSuchElementException`); the inner `Option` of `linkElem` / `imgElem`
models the attribute value, since `get_attribute` may return `None`.
`brandElem` / `nameElem` carry the element's `.text` when the element
exists, and `priceFragments` carries the `.text` of each element returned
by `find_elements` (which returns an empty list rather than raising). -/
structure RawItem where
  linkElem : Option (Option String)
  brandElem : Option String
  nameElem : Option String
  priceFragments : List String
  imgElem : Option (Option String)
  deriving DecidableEq, Repr

/-- Python truthiness of an optional string, as used by
`if product_data.get('product_url'):` (line 173): `None` and `""` are falsy. -/
def pyTruthyStr : Option String → Bool
  | none => false
  | some s => s != ""

/-- Python `x in collected_urls` (line 166) where `x` may be `None`:
the set only ever holds strings, so `None` is never a member. -/
def pyMem : Option String → List String → Bool
  | none, _ => false
  | some u, urls => decide (u ∈ urls)

/-- `image_url.split('?')[0]` (line 109): the prefix of `s` strictly before
its first `'?'` (the whole of `s` when it has none). -/
def stripQuery (s : String) : String :=
  ⟨s.data.takeWhile (· != '?')⟩

/-- Python `'?' in image_url` (line 108): the single character occurs in `s`. -/
def hasQuery (s : String) : Bool :=
  decide ('?' ∈ s.data)

/-- Price resolution (lines 92-101): second fragment if at least two exist
(the first is the discount rate), the sole fragment if exactly one, else
`None`. -/
def extractPrice (price_elements : List String) : Option String :=
  if 2 ≤ price_elements.length then price_elements[1]?
  else if price_elements.length = 1 then price_elements[0]?
  else none

/-- Image URL resolution (lines 103-112): the `src` attribute with the query
string stripped when the value is truthy and contains `'?'`; a missing
element or `None` attribute yields `None`. -/
def extractImageUrl : Option (Option String) → Option String
  | none => none
  | some attr =>
    match attr with
    | none => none
    | some s => if s != "" && hasQuery s then some (stripQuery s) else some s

/-- Shallow embedding of `extract_product_info` (lines 65-114): every field
is resolved by its own `try/except NoSuchElementException` block, so each
field depends only on its own lookup. -/
def extract_product_info (item : RawItem) : ProductData :=
  { product_url :=
      match item.linkElem with
      | none => none
      | some href => href
  , brand_name := item.brandElem
  , product_name := item.nameElem
  , price := extractPrice item.priceFragments
  , image_url := extractImageUrl item.imgElem }

/-- The collection accumulator of `crawl_musinsa`: `products` (line 125),
`collected_urls` (line 126, a set represented by its insertion-ordered
list of elements) and `collected_count` (line 127). -/
structure Core where
  products : List ProductData
  collected_urls : List String
  collected_count : Nat
  deriving DecidableEq, Repr

/-- One pass of the `for item in items` body (lines 156-187), threading
`new_items_found` in the second component: stop once the target is hit
(line 157's `break`, equivalent to skipping the remaining items since the
state is never changed once the count is at the target), skip an item whose
link element is missing (`NoSuchElementException`, line 183), skip an
already collected URL (line 166), extract, and append only a record whose
`product_url` is truthy (lines 173-177). -/
def stepItem (max_items : Nat) (p : Core × Nat) (item : RawItem) : Core × Nat :=
  if max_items ≤ p.1.collected_count then p
  else
    match item.linkElem with
    | none => p
    | some product_url =>
      if pyMem product_url p.1.collected_urls then p
      else
        match (extract_product_info item).product_url with
        | none => p
        | some u =>
          if u = "" then p
          else
            (⟨p.1.products ++ [extract_product_info item],
              p.1.collected_urls ++ [u],
              p.1.collected_count + 1⟩,
             p.2 + 1)

/-- One scan cycle over the currently rendered items (lines 154-187):
`new_items_found` starts at `0` and the items are processed in page order. -/
def runCycle (max_items : Nat) (items : List RawItem) (c : Core) : Core × Nat :=
  items.foldl (stepItem max_items) (c, 0)

/-- What the browser session does at one iteration of the `while` loop:
`find_elements` returns a list of handles (`scan`), `find_elements` itself
raises (`scanFault`), or the scan succeeds but the scroll scripts of lines
209-217 raise if the iteration reaches them (`scrollFault`). -/
inductive CycleEvent where
  | scan (items : List RawItem)
  | scanFault
  | scrollFault (items : List RawItem)

/-- The navigation collaborator for one run: whether `driver.get` and the
initial `wait.until` succeed (`loadOk`), and the event of the `k`-th
iteration of the `while` loop. -/
structure Env where
  loadOk : Bool
  events : Nat → CycleEvent

/-- The loop state of `crawl_musinsa`: the accumulator plus
`no_new_items_count` (line 141) and `scroll_count` (line 128).  `scans` is
a ghost counter of completed `find_elements` calls, recorded for the
termination statements and never read by the loop. -/
structure CrawlState where
  core : Core
  no_new_items_count : Nat
  scroll_count : Nat
  scans : Nat
  deriving DecidableEq, Repr

/-- Result of the `try:` block of `crawl_musinsa`: normal loop exit with
the flag of line 143/193 telling whether the target was reached, an
exception escaping to the bare `except` of line 233, or fuel exhaustion
(proved unreachable in `loop_not_outOfFuel`). -/
inductive TryOutcome where
  | completed (s : CrawlState) (reached : Bool)
  | faulted (s : CrawlState)
  | outOfFuel (s : CrawlState)

/-- The loop state carried by any `TryOutcome`. -/
def TryOutcome.state : TryOutcome → CrawlState
  | .completed s _ => s
  | .faulted s => s
  | .outOfFuel s => s

/-- The `while collected_count < max_items` loop (lines 143-221).  Each
iteration scans, deduplicates and extracts (`runCycle`); a productive
cycle resets `no_new_items_count` and re-checks the target (lines
189-195); an empty cycle increments it, terminating after 10 consecutive
empty cycles (lines 196-204) and otherwise scrolling (lines 206-221).
`fuel` only makes the recursion structural; `loop_not_outOfFuel` shows
`loopFuel max_items` is never exhausted. -/
def loop (env : Env) (max_items : Nat) : Nat → Nat → CrawlState → TryOutcome
  | 0, _, s => .outOfFuel s
  | fuel + 1, k, s =>
    if s.core.collected_count < max_items then
      match env.events k with
      | .scanFault => .faulted s
      | .scan items =>
        let r := runCycle max_items items s.core
        let s1 : CrawlState := { s with core := r.1, scans := s.scans + 1 }
        if 0 < r.2 then
          let s2 : CrawlState := { s1 with no_new_items_count := 0 }
          if max_items ≤ s2.core.collected_count then .completed s2 true
          else loop env max_items fuel (k + 1) s2
        else
          let s2 : CrawlState :=
            { s1 with no_new_items_count := s1.no_new_items_count + 1 }
          if 10 ≤ s2.no_new_items_count then .completed s2 false
          else
            loop env max_items fuel (k + 1)
              { s2 with scroll_count := s2.scroll_count + 1 }
      | .scrollFault items =>
        let r := runCycle max_items items s.core
        let s1 : CrawlState := { s with core := r.1, scans := s.scans + 1 }
        if 0 < r.2 then
          let s2 : CrawlState := { s1 with no_new_items_count := 0 }
          if max_items ≤ s2.core.collected_count then .completed s2 true
          else loop env max_items fuel (k + 1) s2
        else
          let s2 : CrawlState :=
            { s1 with no_new_items_count := s1.no_new_items_count + 1 }
          if 10 ≤ s2.no_new_items_count then .completed s2 false
          else .faulted s2
    else .completed s true

/-- Initial accumulator (lines 125-127). -/
def initCore : Core := ⟨[], [], 0⟩

/-- Initial loop state (lines 125-128 and 141). -/
def initState : CrawlState := ⟨initCore, 0, 0, 0⟩

/-- Fuel that `loop_not_outOfFuel` proves sufficient for every run. -/
def loopFuel (max_items : Nat) : Nat := 11 * max_items + 11

/-- How one run of `crawl_musinsa` ended: target reached, stalled out
(both normal completions, spec section 4.4), or an exception was caught by
the bare `except` of line 233. -/
inductive Outcome where
  | reached_target
  | exhausted
  | faulted
  deriving DecidableEq, Repr

/-- Everything observable about one `crawl_musinsa` call: the returned
list, how the run ended, whether the JSON dump of line 224 ran, whether
`driver.quit()` of line 239 ran, whether the call propagated an exception
to its caller, and the ghost scan / scroll counters. -/
structure CrawlResult where
  products : List ProductData
  outcome : Outcome
  fileWritten : Bool
  driverReleased : Bool
  raised : Bool
  scans : Nat
  scrolls : Nat
  deriving DecidableEq, Repr

/-- The `try:` block of `crawl_musinsa` (lines 130-231): a failing
`driver.get` or initial wait raises before the loop starts; otherwise the
loop runs. -/
def crawl_body (env : Env) (max_items : Nat) : TryOutcome :=
  if env.loadOk then loop env max_items (loopFuel max_items) 0 initState
  else .faulted initState

/-- Shallow embedding of `crawl_musinsa` (lines 116-241).  On normal loop
exit the JSON file is written (line 224); any exception raised after
driver setup reaches the bare `except` of line 233 which logs and swallows
it, so the call itself never raises (`raised := false` on every branch);
`finally` (lines 238-239) quits the driver on every path
(`driverReleased := true`); the collected list is returned on every path
(line 241).  The unreachable `outOfFuel` branch is mapped like a fault. -/
def crawl_musinsa (env : Env) (max_items : Nat) : CrawlResult :=
  match crawl_body env max_items with
  | .completed s reached =>
    { products := s.core.products
    , outcome := if reached then .reached_target else .exhausted
    , fileWritten := true
    , driverReleased := true
    , raised := false
    , scans := s.scans
    , scrolls := s.scroll_count }
  | .faulted s =>
    { products := s.core.products
    , outcome := .faulted
    , fileWritten := false
    , driverReleased := true
    , raised := false
    , scans := s.scans
    , scrolls := s.scroll_count }
  | .outOfFuel s =>
    { products := s.core.products
    , outcome := .faulted
    , fileWritten := false
    , driverReleased := true
    , raised := false
    , scans := s.scans
    , scrolls := s.scroll_count }

/-! ## Basic facts about one item step -/

/-- `stepItem` either leaves the pair untouched or records exactly one new,
valid, previously unseen item while the target is not yet reached. -/
lemma stepItem_cases (m : Nat) (p : Core × Nat) (item : RawItem) :
    stepItem m p item = p ∨
    ∃ u, (extract_product_info item).product_url = some u ∧ u ≠ "" ∧
      p.1.collected_count < m ∧ u ∉ p.1.collected_urls ∧
      stepItem m p item =
        (⟨p.1.products ++ [extract_product_info item],
          p.1.collected_urls ++ [u], p.1.collected_count + 1⟩, p.2 + 1) := by
  by_cases hcnt : m ≤ p.1.collected_count
  · left
    simp [stepItem, hcnt]
  · rcases hlink : item.linkElem with _ | href
    · left
      simp [stepItem, hcnt, hlink]
    · have hurl : (extract_product_info item).product_url = href := by
        simp [extract_product_info, hlink]
      rcases href with _ | u
      · left
        simp [stepItem, hcnt, hlink, hurl, pyMem]
      · by_cases hmem : u ∈ p.1.collected_urls
        · left
          simp [stepItem, hcnt, hlink, pyMem, hmem]
        · by_cases hu : u = ""
          · left
            simp [stepItem, hcnt, hlink, pyMem, hmem, hurl, hu]
          · right
            refine ⟨u, hurl, hu, by omega, hmem, ?_⟩
            simp [stepItem, hcnt, hlink, pyMem, hmem, hurl, hu]

/-- The item step keeps `collected_count` in sync with `new_items_found`. -/
lemma stepItem_count (m : Nat) (p : Core × Nat) (item : RawItem) :
    (stepItem m p item).1.collected_count + p.2 =
      p.1.collected_count + (stepItem m p item).2 := by
  rcases stepItem_cases m p item with h | ⟨u, _, _, _, _, h⟩
  · rw [h]
  · rw [h]
    show p.1.collected_count + 1 + p.2 = p.1.collected_count + (p.2 + 1)
    omega

/-- `new_items_found` never decreases along the item loop. -/
lemma stepItem_nf_mono (m : Nat) (p : Core × Nat) (item : RawItem) :
    p.2 ≤ (stepItem m p item).2 := by
  rcases stepItem_cases m p item with h | ⟨u, _, _, _, _, h⟩
  · rw [h]
  · rw [h]
    show p.2 ≤ p.2 + 1
    omega

/-- An item step that does not raise `new_items_found` changes nothing. -/
lemma stepItem_nf_fix (m : Nat) (p : Core × Nat) (item : RawItem)
    (h : (stepItem m p item).2 = p.2) : stepItem m p item = p := by
  rcases stepItem_cases m p item with h' | ⟨u, _, _, _, _, h'⟩
  · exact h'
  · rw [h'] at h
    have h2 : p.2 + 1 = p.2 := h
    omega

/-- Products only ever grow by appending along one item step. -/
lemma stepItem_products (m : Nat) (p : Core × Nat) (item : RawItem) :
    (stepItem m p item).1.products = p.1.products ∨
    (stepItem m p item).1.products =
      p.1.products ++ [extract_product_info item] := by
  rcases stepItem_cases m p item with h | ⟨u, _, _, _, _, h⟩ <;> rw [h]
  · left; rfl
  · right; rfl

/-! ## Facts about one scan cycle -/

lemma foldl_stepItem_count (m : Nat) :
    ∀ (items : List RawItem) (p : Core × Nat),
      (items.foldl (stepItem m) p).1.collected_count + p.2 =
        p.1.collected_count + (items.foldl (stepItem m) p).2 := by
  intro items
  induction items with
  | nil => intro p; rfl
  | cons a l ih =>
    intro p
    have h1 := stepItem_count m p a
    have h2 := ih (stepItem m p a)
    simp only [List.foldl_cons]
    omega

/-- `collected_count` after a cycle is the old count plus `new_items_found`
(lines 176-177 increment them together). -/
lemma runCycle_count (m : Nat) (items : List RawItem) (c : Core) :
    (runCycle m items c).1.collected_count =
      c.collected_count + (runCycle m items c).2 := by
  have := foldl_stepItem_count m items (c, 0)
  simpa [runCycle] using this

lemma foldl_stepItem_nf_mono (m : Nat) :
    ∀ (items : List RawItem) (p : Core × Nat),
      p.2 ≤ (items.foldl (stepItem m) p).2 := by
  intro items
  induction items with
  | nil => intro p; exact le_refl _
  | cons a l ih =>
    intro p
    have h1 := stepItem_nf_mono m p a
    have h2 := ih (stepItem m p a)
    simp only [List.foldl_cons]
    omega

lemma foldl_stepItem_nf_fix (m : Nat) :
    ∀ (items : List RawItem) (p : Core × Nat),
      (items.foldl (stepItem m) p).2 = p.2 → items.foldl (stepItem m) p = p := by
  intro items
  induction items with
  | nil => intro p _; rfl
  | cons a l ih =>
    intro p h
    simp only [List.foldl_cons] at h ⊢
    have h1 := stepItem_nf_mono m p a
    have h2 := foldl_stepItem_nf_mono m l (stepItem m p a)
    have hfix : stepItem m p a = p := stepItem_nf_fix m p a (by omega)
    rw [hfix] at h ⊢
    exact ih p h

/-- A scan cycle with zero new items leaves the accumulator untouched. -/
lemma runCycle_zero (m : Nat) (items : List RawItem) (c : Core)
    (h : (runCycle m items c).2 = 0) : runCycle m items c = (c, 0) := by
  have := foldl_stepItem_nf_fix m items (c, 0)
  simpa [runCycle] using this (by simpa [runCycle] using h)

lemma foldl_stepItem_products (m : Nat) :
    ∀ (items : List RawItem) (p : Core × Nat),
      ∃ t, (items.foldl (stepItem m) p).1.products = p.1.products ++ t := by
  intro items
  induction items with
  | nil => intro p; exact ⟨[], by simp⟩
  | cons a l ih =>
    intro p
    obtain ⟨t, ht⟩ := ih (stepItem m p a)
    rcases stepItem_products m p a with h | h
    · exact ⟨t, by rw [List.foldl_cons, ht, h]⟩
    · exact ⟨[extract_product_info a] ++ t,
        by rw [List.foldl_cons, ht, h, List.append_assoc]⟩

/-- A scan cycle only ever appends to `products` (line 174), never
reordering or removing. -/
lemma runCycle_products (m : Nat) (items : List RawItem) (c : Core) :
    ∃ t, (runCycle m items c).1.products = c.products ++ t :=
  foldl_stepItem_products m items (c, 0)

/-! ## The deduplication and counting invariants -/

/-- The deduplication invariant of spec section 3: the seen-URL set is
exactly the list of identity keys of the collected records, holds no
duplicate, and every collected record carries a truthy `product_url`. -/
def KeyInv (c : Core) : Prop :=
  c.collected_urls = c.products.filterMap (fun q => q.product_url) ∧
  c.collected_urls.Nodup ∧
  ∀ q ∈ c.products, pyTruthyStr q.product_url = true

/-- `collected_count` mirrors `len(products)` and never exceeds the target. -/
def CountInv (m : Nat) (c : Core) : Prop :=
  c.collected_count = c.products.length ∧ c.collected_count ≤ m

lemma keyInv_init : KeyInv initCore :=
  ⟨rfl, List.nodup_nil, by intro q hq; cases hq⟩

lemma countInv_init (m : Nat) : CountInv m initCore :=
  ⟨rfl, Nat.zero_le m⟩

lemma stepItem_keyInv (m : Nat) (p : Core × Nat) (item : RawItem)
    (h : KeyInv p.1) : KeyInv (stepItem m p item).1 := by
  rcases stepItem_cases m p item with he | ⟨u, hu, hne, hcnt, hmem, he⟩
  · rw [he]; exact h
  · rw [he]
    obtain ⟨h1, h2, h3⟩ := h
    refine ⟨?_, ?_, ?_⟩
    · show p.1.collected_urls ++ [u] =
        (p.1.products ++ [extract_product_info item]).filterMap
          (fun q => q.product_url)
      rw [List.filterMap_append, ← h1]
      simp [hu]
    · show (p.1.collected_urls ++ [u]).Nodup
      simp [List.nodup_append, h2, hmem]
    · intro q hq
      rcases List.mem_append.mp hq with hq | hq
      · exact h3 q hq
      · have hq' : q = extract_product_info item := by simpa using hq
        rw [hq', hu]
        simp [pyTruthyStr, hne]

lemma stepItem_countInv (m : Nat) (p : Core × Nat) (item : RawItem)
    (h : CountInv m p.1) : CountInv m (stepItem m p item).1 := by
  rcases stepItem_cases m p item with he | ⟨u, _, _, hcnt, _, he⟩
  · rw [he]; exact h
  · rw [he]
    refine ⟨?_, ?_⟩
    · show p.1.collected_count + 1 = (p.1.products ++ [extract_product_info item]).length
      simp [h.1]
    · show p.1.collected_count + 1 ≤ m
      omega

lemma foldl_stepItem_pres (m : Nat) (P : Core → Prop)
    (hstep : ∀ p item, P p.1 → P (stepItem m p item).1) :
    ∀ (items : List RawItem) (p : Core × Nat),
      P p.1 → P ((items.foldl (stepItem m) p).1) := by
  intro items
  induction items with
  | nil => intro p h; exact h
  | cons a l ih =>
    intro p h
    simp only [List.foldl_cons]
    exact ih _ (hstep p a h)

lemma runCycle_pres (m : Nat) (P : Core → Prop)
    (hstep : ∀ p item, P p.1 → P (stepItem m p item).1)
    (items : List RawItem) (c : Core) (h : P c) : P (runCycle m items c).1 :=
  foldl_stepItem_pres m P hstep items (c, 0) h

/-- Any per-cycle-preserved property of the accumulator is preserved by the
whole loop, whatever the outcome. -/
lemma loop_pres (env : Env) (m : Nat) (P : Core → Prop)
    (hcycle : ∀ items c, P c → P (runCycle m items c).1) :
    ∀ (fuel k : Nat) (s : CrawlState), P s.core →
      P ((loop env m fuel k s).state).core := by
  intro fuel
  induction fuel with
  | zero => intro k s h; exact h
  | succ fuel ih =>
    intro k s h
    simp only [loop]
    by_cases hg : s.core.collected_count < m
    · rw [if_pos hg]
      rcases hev : env.events k with items | _ | items
      · simp only
        by_cases hnf : 0 < (runCycle m items s.core).2
        · rw [if_pos hnf]
          by_cases hdone : m ≤ (runCycle m items s.core).1.collected_count
          · rw [if_pos hdone]
            exact hcycle items s.core h
          · rw [if_neg hdone]
            exact ih (k + 1) _ (hcycle items s.core h)
        · rw [if_neg hnf]
          by_cases hstall : 10 ≤ s.no_new_items_count + 1
          · rw [if_pos hstall]
            exact hcycle items s.core h
          · rw [if_neg hstall]
            exact ih (k + 1) _ (hcycle items s.core h)
      · exact h
      · simp only
        by_cases hnf : 0 < (runCycle m items s.core).2
        · rw [if_pos hnf]
          by_cases hdone : m ≤ (runCycle m items s.core).1.collected_count
          · rw [if_pos hdone]
            exact hcycle items s.core h
          · rw [if_neg hdone]
            exact ih (k + 1) _ (hcycle items s.core h)
        · rw [if_neg hnf]
          by_cases hstall : 10 ≤ s.no_new_items_count + 1
          · rw [if_pos hstall]
            exact hcycle items s.core h
          · rw [if_neg hstall]
            exact hcycle items s.core h
    · rw [if_neg hg]
      exact h

/-! ## Termination: the fuel is only a device, never exhausted -/

/-- Each iteration either raises `collected_count` (resetting the stall
counter) or raises the stall counter toward its threshold of 10, so
`11 * (m - count) + (10 - stall)` bounds the remaining iterations. -/
lemma loop_not_outOfFuel (env : Env) (m : Nat) :
    ∀ (fuel k : Nat) (s : CrawlState),
      11 * (m - s.core.collected_count) + (10 - s.no_new_items_count) < fuel →
      ∀ s', loop env m fuel k s ≠ .outOfFuel s' := by
  intro fuel
  induction fuel with
  | zero => intro k s h; omega
  | succ fuel ih =>
    intro k s h s'
    simp only [loop]
    by_cases hg : s.core.collected_count < m
    · rw [if_pos hg]
      rcases hev : env.events k with items | _ | items
      · simp only
        have hcnt := runCycle_count m items s.core
        by_cases hnf : 0 < (runCycle m items s.core).2
        · rw [if_pos hnf]
          by_cases hdone : m ≤ (runCycle m items s.core).1.collected_count
          · rw [if_pos hdone]
            intro hc; exact TryOutcome.noConfusion hc
          · rw [if_neg hdone]
            apply ih
            show 11 * (m - (runCycle m items s.core).1.collected_count) +
              (10 - 0) < fuel
            omega
        · rw [if_neg hnf]
          by_cases hstall : 10 ≤ s.no_new_items_count + 1
          · rw [if_pos hstall]
            intro hc; exact TryOutcome.noConfusion hc
          · rw [if_neg hstall]
            apply ih
            show 11 * (m - (runCycle m items s.core).1.collected_count) +
              (10 - (s.no_new_items_count + 1)) < fuel
            omega
      · intro hc; exact TryOutcome.noConfusion hc
      · simp only
        have hcnt := runCycle_count m items s.core
        by_cases hnf : 0 < (runCycle m items s.core).2
        · rw [if_pos hnf]
          by_cases hdone : m ≤ (runCycle m items s.core).1.collected_count
          · rw [if_pos hdone]
            intro hc; exact TryOutcome.noConfusion hc
          · rw [if_neg hdone]
            apply ih
            show 11 * (m - (runCycle m items s.core).1.collected_count) +
              (10 - 0) < fuel
            omega
        · rw [if_neg hnf]
          by_cases hstall : 10 ≤ s.no_new_items_count + 1
          · rw [if_pos hstall]
            intro hc; exact TryOutcome.noConfusion hc
          · rw [if_neg hstall]
            intro hc; exact TryOutcome.noConfusion hc
    · rw [if_neg hg]
      intro hc; exact TryOutcome.noConfusion hc

/-- With `loopFuel max_items` the fuel guard is unreachable: the embedded
loop terminates on every environment exactly as the source loop does. -/
lemma crawl_body_not_outOfFuel (env : Env) (m : Nat) (s' : CrawlState) :
    crawl_body env m ≠ .outOfFuel s' := by
  unfold crawl_body
  by_cases hl : env.loadOk
  · rw [if_pos hl]
    apply loop_not_outOfFuel
    show 11 * (m - initState.core.collected_count) +
      (10 - initState.no_new_items_count) < loopFuel m
    simp only [initState, initCore, loopFuel]
    omega
  · rw [if_neg hl]
    intro hc; exact TryOutcome.noConfusion hc

/-- A `completed` exit with `reached = true` has hit the target
(lines 143 and 193); one with `reached = false` is the stall exit of line
201, where strictly fewer than `max_items` items were collected. -/
lemma loop_completed_count (env : Env) (m : Nat) :
    ∀ (fuel k : Nat) (s s' : CrawlState) (b : Bool),
      loop env m fuel k s = .completed s' b →
      (b = true → m ≤ s'.core.collected_count) ∧
      (b = false → s'.core.collected_count < m) := by
  intro fuel
  induction fuel with
  | zero =>
    intro k s s' b hc
    exact TryOutcome.noConfusion hc
  | succ fuel ih =>
    intro k s s' b hc
    simp only [loop] at hc
    by_cases hg : s.core.collected_count < m
    · rw [if_pos hg] at hc
      rcases hev : env.events k with items | _ | items <;> rw [hev] at hc
      · simp only at hc
        have hcnt := runCycle_count m items s.core
        by_cases hnf : 0 < (runCycle m items s.core).2
        · rw [if_pos hnf] at hc
          by_cases hdone : m ≤ (runCycle m items s.core).1.collected_count
          · rw [if_pos hdone] at hc
            injection hc with h1 h2
            subst h1; subst h2
            exact ⟨fun _ => hdone, fun hb => Bool.noConfusion hb⟩
          · rw [if_neg hdone] at hc
            exact ih (k + 1) _ s' b hc
        · rw [if_neg hnf] at hc
          by_cases hstall : 10 ≤ s.no_new_items_count + 1
          · rw [if_pos hstall] at hc
            injection hc with h1 h2
            subst h1; subst h2
            refine ⟨fun hb => Bool.noConfusion hb, fun _ => ?_⟩
            show (runCycle m items s.core).1.collected_count < m
            omega
          · rw [if_neg hstall] at hc
            exact ih (k + 1) _ s' b hc
      · exact TryOutcome.noConfusion hc
      · simp only at hc
        have hcnt := runCycle_count m items s.core
        by_cases hnf : 0 < (runCycle m items s.core).2
        · rw [if_pos hnf] at hc
          by_cases hdone : m ≤ (runCycle m items s.core).1.collected_count
          · rw [if_pos hdone] at hc
            injection hc with h1 h2
            subst h1; subst h2
            exact ⟨fun _ => hdone, fun hb => Bool.noConfusion hb⟩
          · rw [if_neg hdone] at hc
            exact ih (k + 1) _ s' b hc
        · rw [if_neg hnf] at hc
          by_cases hstall : 10 ≤ s.no_new_items_count + 1
          · rw [if_pos hstall] at hc
            injection hc with h1 h2
            subst h1; subst h2
            refine ⟨fun hb => Bool.noConfusion hb, fun _ => ?_⟩
            show (runCycle m items s.core).1.collected_count < m
            omega
          · rw [if_neg hstall] at hc
            exact TryOutcome.noConfusion hc
    · rw [if_neg hg] at hc
      injection hc with h1 h2
      subst h1; subst h2
      exact ⟨fun _ => by omega, fun hb => Bool.noConfusion hb⟩

/-! ## Stall termination -/

/-- From a state with `no_new_items_count + j = 10` and `j` consecutive
zero-yield scans ahead, the loop performs exactly those `j` scans and
`j - 1` scrolls and then takes the stall exit of line 201, leaving the
accumulator untouched. -/
lemma loop_stall (env : Env) (m : Nat) :
    ∀ j : Nat, 1 ≤ j →
      ∀ (fuel k : Nat) (s : CrawlState), j ≤ fuel →
        s.no_new_items_count + j = 10 →
        s.core.collected_count < m →
        (∀ i, i < j → ∃ items, env.events (k + i) = CycleEvent.scan items ∧
          (runCycle m items s.core).2 = 0) →
        loop env m fuel k s =
          .completed ⟨s.core, 10, s.scroll_count + (j - 1), s.scans + j⟩ false := by
  intro j
  induction j with
  | zero => intro h; exact absurd h (by omega)
  | succ j ih =>
    intro _ fuel k s hfuel hnnc hcnt hempty
    obtain ⟨fuel, rfl⟩ : ∃ f, fuel = f + 1 := ⟨fuel - 1, by omega⟩
    obtain ⟨items, hev, hnf⟩ := hempty 0 (by omega)
    rw [Nat.add_zero] at hev
    have h1 : (runCycle m items s.core).1 = s.core := by
      rw [runCycle_zero m items s.core hnf]
    simp only [loop]
    rw [if_pos hcnt, hev]
    simp only
    rw [if_neg (show ¬ 0 < (runCycle m items s.core).2 by omega)]
    by_cases hj : j = 0
    · subst hj
      rw [if_pos (show 10 ≤ s.no_new_items_count + 1 by omega),
        TryOutcome.completed.injEq, CrawlState.mk.injEq]
      refine ⟨⟨h1, by omega, by omega, by omega⟩, rfl⟩
    · rw [if_neg (show ¬ 10 ≤ s.no_new_items_count + 1 by omega)]
      have hstep := ih (by omega) fuel (k + 1)
        ⟨(runCycle m items s.core).1, s.no_new_items_count + 1,
          s.scroll_count + 1, s.scans + 1⟩
        (by omega)
        (show s.no_new_items_count + 1 + j = 10 by omega)
        (show (runCycle m items s.core).1.collected_count < m by
          rw [h1]; exact hcnt)
        (by
          intro i hi
          obtain ⟨its, hev', hnf'⟩ := hempty (i + 1) (by omega)
          refine ⟨its, ?_, ?_⟩
          · have hk : k + 1 + i = k + (i + 1) := by omega
            rw [hk]; exact hev'
          · show (runCycle m its (runCycle m items s.core).1).2 = 0
            rw [h1]; exact hnf')
      refine hstep.trans ?_
      rw [TryOutcome.completed.injEq, CrawlState.mk.injEq]
      refine ⟨⟨h1, rfl, ?_, ?_⟩, rfl⟩
      · show s.scroll_count + 1 + (j - 1) = s.scroll_count + (j + 1 - 1)
        omega
      · show s.scans + 1 + j = s.scans + (j + 1)
        omega

/-! ## Helpers at the level of `crawl_musinsa` -/

/-- The returned list is always the final loop state's product list
(line 241 returns `products` on every path, the `finally` notwithstanding). -/
lemma crawl_products (env : Env) (m : Nat) :
    (crawl_musinsa env m).products = ((crawl_body env m).state).core.products := by
  unfold crawl_musinsa
  rcases h : crawl_body env m with ⟨s, b⟩ | s | s <;> rfl

/-- Any property of the accumulator preserved by the item step holds of the
final state of the `try:` block. -/
lemma crawl_core_pres (env : Env) (m : Nat) (P : Core → Prop)
    (hstep : ∀ p item, P p.1 → P (stepItem m p item).1)
    (hinit : P initCore) : P ((crawl_body env m).state).core := by
  unfold crawl_body
  by_cases hl : env.loadOk
  · rw [if_pos hl]
    exact loop_pres env m P
      (fun items c h => runCycle_pres m P hstep items c h)
      (loopFuel m) 0 initState hinit
  · rw [if_neg hl]
    exact hinit

/-- A list whose identity keys are all present and pairwise distinct as a
`filterMap` has pairwise distinct keys. -/
lemma pairwise_ne_of_filterMap_nodup :
    ∀ l : List ProductData,
      (l.filterMap (fun q => q.product_url)).Nodup →
      (∀ q ∈ l, pyTruthyStr q.product_url = true) →
      l.Pairwise (fun a b => a.product_url ≠ b.product_url) := by
  intro l
  induction l with
  | nil => intro _ _; exact List.Pairwise.nil
  | cons a l ih =>
    intro hnd htr
    obtain ⟨u, hu⟩ : ∃ u, a.product_url = some u := by
      have ha := htr a (List.mem_cons_self a l)
      cases hval : a.product_url with
      | none => rw [hval] at ha; exact absurd ha (by simp [pyTruthyStr])
      | some u => exact ⟨u, rfl⟩
    rw [List.filterMap_cons, hu] at hnd
    have hnd' := List.nodup_cons.mp hnd
    refine List.Pairwise.cons ?_ (ih hnd'.2 (fun q hq => htr q (List.mem_cons_of_mem a hq)))
    intro b hb heq
    have hbu : b.product_url = some u := by rw [← heq, hu]
    exact hnd'.1 (List.mem_filterMap.mpr ⟨b, hb, hbu⟩)

/-- Splitting a character list at its first `'?'`. -/
lemma takeWhile_first_query :
    ∀ l : List Char, '?' ∈ l →
      ∃ rest, l = l.takeWhile (· != '?') ++ '?' :: rest ∧
        '?' ∉ l.takeWhile (· != '?') := by
  intro l
  induction l with
  | nil => intro h; cases h
  | cons c l ih =>
    intro h
    by_cases hc : c = '?'
    · subst hc
      refine ⟨l, ?_, ?_⟩
      · simp [List.takeWhile_cons]
      · simp [List.takeWhile_cons]
    · have hcb : (c != '?') = true := by simp [hc]
      have h' : '?' ∈ l := by
        rcases List.mem_cons.mp h with h9 | h9
        · exact absurd h9.symm hc
        · exact h9
      obtain ⟨rest, hl, hni⟩ := ih h'
      refine ⟨rest, ?_, ?_⟩
      · rw [List.takeWhile_cons, if_pos hcb, List.cons_append]
        exact congrArg (List.cons c) hl
      · rw [List.takeWhile_cons, if_pos hcb]
        intro hmem
        rcases List.mem_cons.mp hmem with h9 | h9
        · exact hc h9.symm
        · exact hni h9

/-! ## Sample handles and sessions used by the concrete instances -/

/-- A complete valid item handle. -/
def itemA : RawItem :=
  ⟨some (some "https://musinsa.test/products/1"), some "BrandA",
    some "Alpha knit", ["-10%", "9,900원"],
    some (some "https://img.test/1.jpg?w=260")⟩

/-- A second valid handle with a distinct URL and a missing brand element. -/
def itemB : RawItem :=
  ⟨some (some "https://musinsa.test/products/2"), none,
    some "Beta hoodie", ["19,900원"], some (some "https://img.test/2.jpg")⟩

/-- An invalid handle: its link element is missing. -/
def itemNoLink : RawItem := ⟨none, some "BrandC", none, [], none⟩

/-- A session whose every scan shows the same two items. -/
def envTwoItems : Env := ⟨true, fun _ => CycleEvent.scan [itemA, itemB]⟩

/-- A session that always renders an empty item list. -/
def envEmpty : Env := ⟨true, fun _ => CycleEvent.scan []⟩

/-- A session whose initial page load fails. -/
def envLoadFail : Env := ⟨false, fun _ => CycleEvent.scan []⟩

/-- A session that shows two items once, then crashes at the next scan. -/
def envMidFault : Env :=
  ⟨true, fun k => if k = 0 then CycleEvent.scan [itemA, itemB]
    else CycleEvent.scanFault⟩

/-! ## Claim theorems -/

/-- C1: in every run no two output items share an identity key
(`product_url`), and at every point of the run the seen-key set is exactly
the list of identity keys of the items collected so far: the invariant
holds initially, is preserved by every per-item step of the loop, hence by
the whole loop on any environment, and makes the returned list pairwise
distinct in its keys. -/
theorem c1_uniqueness_seen_keys :
    KeyInv initCore ∧
    (∀ (m : Nat) (c : Core) (n : Nat) (item : RawItem),
      KeyInv c → KeyInv (stepItem m (c, n) item).1) ∧
    (∀ (env : Env) (m fuel k : Nat) (s : CrawlState),
      KeyInv s.core → KeyInv ((loop env m fuel k s).state).core) ∧
    (∀ (env : Env) (m : Nat),
      (crawl_musinsa env m).products.Pairwise
        (fun a b => a.product_url ≠ b.product_url)) := by
  refine ⟨keyInv_init, ?_, ?_, ?_⟩
  · intro m c n item h
    exact stepItem_keyInv m (c, n) item h
  · intro env m fuel k s h
    exact loop_pres env m KeyInv
      (fun items c hc =>
        runCycle_pres m KeyInv (fun p it hp => stepItem_keyInv m p it hp) items c hc)
      fuel k s h
  · intro env m
    have hfin : KeyInv ((crawl_body env m).state).core :=
      crawl_core_pres env m KeyInv
        (fun p it hp => stepItem_keyInv m p it hp) keyInv_init
    rw [crawl_products env m]
    exact pairwise_ne_of_filterMap_nodup _ (hfin.1 ▸ hfin.2.1) hfin.2.2

/-- Witness for C1 at concrete inputs. -/
theorem c1_uniqueness_seen_keys_witness :
    KeyInv (stepItem 5 (initCore, 0) itemA).1 ∧
    KeyInv ((loop envTwoItems 5 3 0 initState).state).core ∧
    (crawl_musinsa envTwoItems 5).products.Pairwise
      (fun a b => a.product_url ≠ b.product_url) :=
  ⟨c1_uniqueness_seen_keys.2.1 5 initCore 0 itemA c1_uniqueness_seen_keys.1,
   c1_uniqueness_seen_keys.2.2.1 envTwoItems 5 3 0 initState
     c1_uniqueness_seen_keys.1,
   c1_uniqueness_seen_keys.2.2.2 envTwoItems 5⟩

/-- C2: output order equals first-seen order: a per-item step either leaves
the output untouched or appends the freshly extracted record at the end,
and only when its identity key was not previously collected; and across
any stretch of the loop the output only ever grows by appending — never
reordered, never pruned. -/
theorem c2_order_first_seen :
    (∀ (m : Nat) (c : Core) (n : Nat) (item : RawItem), KeyInv c →
      (stepItem m (c, n) item).1.products = c.products ∨
      ((stepItem m (c, n) item).1.products =
          c.products ++ [extract_product_info item] ∧
        (extract_product_info item).product_url ∉
          c.products.map (fun q => q.product_url))) ∧
    (∀ (env : Env) (m fuel k : Nat) (s : CrawlState),
      ∃ t, ((loop env m fuel k s).state).core.products =
        s.core.products ++ t) := by
  constructor
  · intro m c n item hinv
    rcases stepItem_cases m (c, n) item with he | ⟨u, hu, hne, hcnt, hmem, he⟩
    · left; rw [he]
    · right
      refine ⟨by rw [he], ?_⟩
      intro hmm
      obtain ⟨q, hq, hq'⟩ := List.mem_map.mp hmm
      have hqu : q.product_url = some u := by rw [hq', hu]
      have : u ∈ c.collected_urls := by
        rw [hinv.1]
        exact List.mem_filterMap.mpr ⟨q, hq, hqu⟩
      exact hmem this
  · intro env m fuel k s
    exact loop_pres env m (fun c => ∃ t, c.products = s.core.products ++ t)
      (fun items c hc => by
        obtain ⟨t, ht⟩ := hc
        obtain ⟨t', ht'⟩ := runCycle_products m items c
        exact ⟨t ++ t', by rw [ht', ht, List.append_assoc]⟩)
      fuel k s ⟨[], by simp⟩

/-- Witness for C2 at concrete inputs. -/
theorem c2_order_first_seen_witness :
    ((stepItem 5 (initCore, 0) itemA).1.products = initCore.products ∨
      ((stepItem 5 (initCore, 0) itemA).1.products =
          initCore.products ++ [extract_product_info itemA] ∧
        (extract_product_info itemA).product_url ∉
          initCore.products.map (fun q => q.product_url))) ∧
    (∃ t, ((loop envTwoItems 5 3 0 initState).state).core.products =
      initState.core.products ++ t) :=
  ⟨c2_order_first_seen.1 5 initCore 0 itemA keyInv_init,
   c2_order_first_seen.2 envTwoItems 5 3 0 initState⟩

/-- C6: the price tie-break rule of lines 92-101: with at least two price
fragments the extracted price is the second; with exactly one it is that
fragment; with none it is null. -/
theorem c6_price_tiebreak (item : RawItem) :
    (∀ a b rest, item.priceFragments = a :: b :: rest →
      (extract_product_info item).price = some b) ∧
    (∀ a, item.priceFragments = [a] →
      (extract_product_info item).price = some a) ∧
    (item.priceFragments = [] → (extract_product_info item).price = none) := by
  refine ⟨?_, ?_, ?_⟩
  · intro a b rest h
    simp [extract_product_info, extractPrice, h]
  · intro a h
    simp [extract_product_info, extractPrice, h]
  · intro h
    simp [extract_product_info, extractPrice, h]

/-- A handle rendering two price fragments (discount rate, then price). -/
def itemPriceTwo : RawItem :=
  ⟨some (some "u"), none, none, ["-10%", "9,900원"], none⟩

/-- A handle rendering a single price fragment. -/
def itemPriceOne : RawItem := ⟨some (some "u"), none, none, ["9,900원"], none⟩

/-- A handle rendering no price fragment. -/
def itemPriceZero : RawItem := ⟨some (some "u"), none, none, [], none⟩

/-- Witness for C6 on the spec's own examples. -/
theorem c6_price_tiebreak_witness :
    (extract_product_info itemPriceTwo).price = some "9,900원" ∧
    (extract_product_info itemPriceOne).price = some "9,900원" ∧
    (extract_product_info itemPriceZero).price = none :=
  ⟨(c6_price_tiebreak itemPriceTwo).1 "-10%" "9,900원" [] rfl,
   (c6_price_tiebreak itemPriceOne).2.1 "9,900원" rfl,
   (c6_price_tiebreak itemPriceZero).2.2 rfl⟩

/-- C7: an item whose identity key is absent (or Python-falsy) is never
emitted, never recorded in the seen set, never counted toward the
per-cycle new-item counter, and its rejection leaves the processing of the
remaining items of the same scan exactly as if it had not been there. -/
theorem c7_invalid_item_skipped (m : Nat) (item : RawItem)
    (h : pyTruthyStr (extract_product_info item).product_url = false) :
    (∀ (c : Core) (n : Nat), stepItem m (c, n) item = (c, n)) ∧
    (∀ (items : List RawItem) (c : Core),
      runCycle m (item :: items) c = runCycle m items c) := by
  have hstep : ∀ (c : Core) (n : Nat), stepItem m (c, n) item = (c, n) := by
    intro c n
    rcases stepItem_cases m (c, n) item with he | ⟨u, hu, hne, _, _, _⟩
    · exact he
    · rw [hu] at h
      simp [pyTruthyStr] at h
      exact absurd h hne
  refine ⟨hstep, ?_⟩
  intro items c
  unfold runCycle
  rw [List.foldl_cons, hstep c 0]

/-- Witness for C7 on a handle with a missing link element. -/
theorem c7_invalid_item_skipped_witness :
    stepItem 5 (initCore, 0) itemNoLink = (initCore, 0) ∧
    runCycle 5 [itemNoLink, itemA] initCore = runCycle 5 [itemA] initCore :=
  ⟨(c7_invalid_item_skipped 5 itemNoLink (by decide)).1 initCore 0,
   (c7_invalid_item_skipped 5 itemNoLink (by decide)).2 [itemA] initCore⟩

/-- C8: per-field independence of extraction: a failed lookup yields null
for that field only, and every extracted field depends solely on its own
lookup result, so a missing field neither perturbs the other fields of the
item nor (extraction being a pure per-item function) any other item. -/
theorem c8_field_independence (item item' : RawItem) :
    ((item.linkElem = none → (extract_product_info item).product_url = none) ∧
     (item.brandElem = none → (extract_product_info item).brand_name = none) ∧
     (item.nameElem = none → (extract_product_info item).product_name = none) ∧
     (item.priceFragments = [] → (extract_product_info item).price = none) ∧
     (item.imgElem = none → (extract_product_info item).image_url = none)) ∧
    ((item.linkElem = item'.linkElem →
       (extract_product_info item).product_url =
         (extract_product_info item').product_url) ∧
     (item.brandElem = item'.brandElem →
       (extract_product_info item).brand_name =
         (extract_product_info item').brand_name) ∧
     (item.nameElem = item'.nameElem →
       (extract_product_info item).product_name =
         (extract_product_info item').product_name) ∧
     (item.priceFragments = item'.priceFragments →
       (extract_product_info item).price =
         (extract_product_info item').price) ∧
     (item.imgElem = item'.imgElem →
       (extract_product_info item).image_url =
         (extract_product_info item').image_url)) := by
  refine ⟨⟨?_, ?_, ?_, ?_, ?_⟩, ⟨?_, ?_, ?_, ?_, ?_⟩⟩ <;> intro h <;>
    simp [extract_product_info, extractPrice, extractImageUrl, h]

/-- A handle identical to `itemA` except for its missing brand element. -/
def itemNoBrand : RawItem :=
  ⟨some (some "https://musinsa.test/products/1"), none, some "Alpha knit",
    ["-10%", "9,900원"], some (some "https://img.test/1.jpg?w=260")⟩

/-- Witness for C8: the missing brand yields null without touching the URL. -/
theorem c8_field_independence_witness :
    (extract_product_info itemNoBrand).brand_name = none ∧
    (extract_product_info itemNoBrand).product_url =
      (extract_product_info itemA).product_url :=
  ⟨((c8_field_independence itemNoBrand itemA).1).2.1 rfl,
   ((c8_field_independence itemNoBrand itemA).2).1 rfl⟩

/-- C9: image normalization: a stored `image_url` is the `src` attribute
with everything from the first `'?'` on stripped; a value without `'?'` is
stored unchanged; a missing element or null attribute yields null. -/
theorem c9_image_normalization (item : RawItem) :
    (item.imgElem = none → (extract_product_info item).image_url = none) ∧
    (item.imgElem = some none → (extract_product_info item).image_url = none) ∧
    (∀ s, item.imgElem = some (some s) →
      ('?' ∉ s.data → (extract_product_info item).image_url = some s) ∧
      ('?' ∈ s.data →
        ∃ r rest, (extract_product_info item).image_url = some r ∧
          '?' ∉ r.data ∧ s.data = r.data ++ '?' :: rest)) := by
  refine ⟨?_, ?_, ?_⟩
  · intro h; simp [extract_product_info, extractImageUrl, h]
  · intro h; simp [extract_product_info, extractImageUrl, h]
  · intro s h
    constructor
    · intro hq
      have hq' : hasQuery s = false := by simp [hasQuery, hq]
      simp [extract_product_info, extractImageUrl, h, hq']
    · intro hq
      have hq' : hasQuery s = true := by simp [hasQuery, hq]
      have hne : (s != "") = true := by
        rw [bne_iff_ne]
        intro h0
        rw [h0] at hq
        exact List.not_mem_nil '?' hq
      obtain ⟨rest, hsplit, hni⟩ := takeWhile_first_query s.data hq
      refine ⟨stripQuery s, rest, ?_, ?_, ?_⟩
      · simp [extract_product_info, extractImageUrl, h, hq', hne, stripQuery]
      · exact hni
      · exact hsplit

/-- A handle whose image `src` carries a resize query parameter. -/
def itemImgQuery : RawItem :=
  ⟨some (some "u"), none, none, [],
    some (some "https://img.test/1.jpg?w=260")⟩

/-- A handle whose image `src` has no query string. -/
def itemImgPlain : RawItem :=
  ⟨some (some "u"), none, none, [], some (some "https://img.test/2.jpg")⟩

/-- Witness for C9: one normalized, one left unchanged. -/
theorem c9_image_normalization_witness :
    (extract_product_info itemImgPlain).image_url =
      some "https://img.test/2.jpg" ∧
    (∃ r rest, (extract_product_info itemImgQuery).image_url = some r ∧
      '?' ∉ r.data ∧
      ("https://img.test/1.jpg?w=260" : String).data = r.data ++ '?' :: rest) :=
  ⟨((c9_image_normalization itemImgPlain).2.2 "https://img.test/2.jpg"
      rfl).1 (by decide),
   ((c9_image_normalization itemImgQuery).2.2 "https://img.test/1.jpg?w=260"
      rfl).2 (by decide)⟩

/-- C3: the output never holds more than `max_items` records; and on a run
that completed without a caught exception, the output length equals
`max_items` exactly when the outcome is `reached_target` — the stall
outcome `exhausted` always carries strictly fewer — so the caller can tell
the two apart from the returned list alone. -/
theorem c3_bound_and_outcome (env : Env) (m : Nat) :
    (crawl_musinsa env m).products.length ≤ m ∧
    ((crawl_musinsa env m).outcome ≠ Outcome.faulted →
      ((crawl_musinsa env m).products.length = m ↔
        (crawl_musinsa env m).outcome = Outcome.reached_target)) := by
  have hci : CountInv m ((crawl_body env m).state).core :=
    crawl_core_pres env m (CountInv m)
      (fun p it hp => stepItem_countInv m p it hp) (countInv_init m)
  have hlen : (crawl_musinsa env m).products.length =
      ((crawl_body env m).state).core.collected_count := by
    rw [crawl_products env m, ← hci.1]
  constructor
  · rw [hlen]; exact hci.2
  · intro hnf
    rcases hb : crawl_body env m with ⟨s, b⟩ | s | s
    · have hloop : loop env m (loopFuel m) 0 initState = .completed s b := by
        unfold crawl_body at hb
        by_cases hl : env.loadOk
        · rw [if_pos hl] at hb; exact hb
        · rw [if_neg hl] at hb; exact TryOutcome.noConfusion hb
      have hcc := loop_completed_count env m (loopFuel m) 0 initState s b hloop
      rw [hb] at hlen hci
      have hout : (crawl_musinsa env m).outcome =
          (if b then Outcome.reached_target else Outcome.exhausted) := by
        unfold crawl_musinsa
        rw [hb]
      cases b
      · have hlt : s.core.collected_count < m := hcc.2 rfl
        refine iff_of_false ?_ ?_
        · rw [hlen]
          show ¬ (TryOutcome.completed s false).state.core.collected_count = m
          simp only [TryOutcome.state]
          omega
        · rw [hout]
          simp
      · have hge : m ≤ s.core.collected_count := hcc.1 rfl
        have hle : s.core.collected_count ≤ m := hci.2
        refine iff_of_true ?_ ?_
        · rw [hlen]
          show (TryOutcome.completed s true).state.core.collected_count = m
          simp only [TryOutcome.state]
          omega
        · rw [hout]
          simp
    · exfalso
      apply hnf
      unfold crawl_musinsa
      rw [hb]
    · exact absurd hb (crawl_body_not_outOfFuel env m s)

/-- Witness for C3 on a run that reaches its target of 2 in one scan. -/
theorem c3_bound_and_outcome_witness :
    (crawl_musinsa envTwoItems 2).products.length ≤ 2 ∧
    ((crawl_musinsa envTwoItems 2).products.length = 2 ↔
      (crawl_musinsa envTwoItems 2).outcome = Outcome.reached_target) :=
  ⟨(c3_bound_and_outcome envTwoItems 2).1,
   (c3_bound_and_outcome envTwoItems 2).2 (by decide)⟩

/-- C4: stall termination: from any mid-run state with a fresh stall
counter, ten consecutive zero-yield scans end the run via the stall exit
immediately after the tenth scan — exactly ten scans and nine scrolls, no
scroll after the tenth — with the collection untouched; from the start of
a run this makes `crawl_musinsa` return the `exhausted` outcome with 10
scans and 9 scrolls; and one unfolding of the loop shows any scan with at
least one new item resets the stall counter to zero, so only consecutive
empty scans count toward the threshold. -/
theorem c4_stall_termination :
    (∀ (env : Env) (m fuel k : Nat) (s : CrawlState),
      10 ≤ fuel → s.no_new_items_count = 0 → s.core.collected_count < m →
      (∀ i, i < 10 → ∃ items, env.events (k + i) = CycleEvent.scan items ∧
        (runCycle m items s.core).2 = 0) →
      loop env m fuel k s =
        .completed ⟨s.core, 10, s.scroll_count + 9, s.scans + 10⟩ false) ∧
    (∀ (env : Env) (m : Nat), env.loadOk = true → 0 < m →
      (∀ i, i < 10 → ∃ items, env.events i = CycleEvent.scan items ∧
        (runCycle m items initCore).2 = 0) →
      crawl_musinsa env m =
        ⟨[], Outcome.exhausted, true, true, false, 10, 9⟩) ∧
    (∀ (env : Env) (m fuel k : Nat) (s : CrawlState) (items : List RawItem),
      env.events k = CycleEvent.scan items →
      s.core.collected_count < m →
      0 < (runCycle m items s.core).2 →
      (runCycle m items s.core).1.collected_count < m →
      loop env m (fuel + 1) k s =
        loop env m fuel (k + 1)
          ⟨(runCycle m items s.core).1, 0, s.scroll_count, s.scans + 1⟩) := by
  have hgen : ∀ (env : Env) (m fuel k : Nat) (s : CrawlState),
      10 ≤ fuel → s.no_new_items_count = 0 → s.core.collected_count < m →
      (∀ i, i < 10 → ∃ items, env.events (k + i) = CycleEvent.scan items ∧
        (runCycle m items s.core).2 = 0) →
      loop env m fuel k s =
        .completed ⟨s.core, 10, s.scroll_count + 9, s.scans + 10⟩ false := by
    intro env m fuel k s hfuel hnnc hcnt hemp
    have h := loop_stall env m 10 (by omega) fuel k s hfuel (by omega) hcnt hemp
    rw [h, TryOutcome.completed.injEq, CrawlState.mk.injEq]
    refine ⟨⟨rfl, rfl, by omega, rfl⟩, rfl⟩
  refine ⟨hgen, ?_, ?_⟩
  · intro env m hl hm hemp
    have h := hgen env m (loopFuel m) 0 initState
      (by simp only [loopFuel]; omega) rfl
      (show initState.core.collected_count < m from hm)
      (fun i hi => by
        obtain ⟨its, he, hn⟩ := hemp i hi
        exact ⟨its, by rw [Nat.zero_add]; exact he, hn⟩)
    unfold crawl_musinsa crawl_body
    rw [if_pos hl, h]
    rfl
  · intro env m fuel k s items hev hg hnf hdone
    simp only [loop]
    rw [if_pos hg, hev]
    simp only
    rw [if_pos hnf, if_neg (show ¬ m ≤ (runCycle m items s.core).1.collected_count
      by omega)]

/-- Witness for C4 on a page that never yields anything (7 wanted, 0 found)
and, for the reset clause, on a first productive scan. -/
theorem c4_stall_termination_witness :
    loop envEmpty 7 12 0 initState =
      .completed ⟨initState.core, 10, initState.scroll_count + 9,
        initState.scans + 10⟩ false ∧
    crawl_musinsa envEmpty 7 =
      ⟨[], Outcome.exhausted, true, true, false, 10, 9⟩ ∧
    loop envTwoItems 5 (2 + 1) 0 initState =
      loop envTwoItems 5 2 1
        ⟨(runCycle 5 [itemA, itemB] initState.core).1, 0,
          initState.scroll_count, initState.scans + 1⟩ :=
  ⟨c4_stall_termination.1 envEmpty 7 12 0 initState (by omega) rfl (by decide)
      (fun i hi => ⟨[], rfl, rfl⟩),
   c4_stall_termination.2.1 envEmpty 7 rfl (by omega)
      (fun i hi => ⟨[], rfl, rfl⟩),
   c4_stall_termination.2.2 envTwoItems 5 2 0 initState [itemA, itemB] rfl
      (by decide) (by decide) (by decide)⟩

/-- C5 counterexample: the claim says a broken navigation session is
surfaced (raised) to the orchestrator; but on a session whose page load
fails, `crawl_musinsa` completes normally — the bare `except` of line 233
swallows the fault (`raised = false`) even though the run did fault. -/
theorem c5_counterexample_fault_not_surfaced :
    (crawl_musinsa envLoadFail 5).outcome = Outcome.faulted ∧
    (crawl_musinsa envLoadFail 5).raised = false := by
  decide

/-- C5 (amended): the loop never raises for ordinary missing fields or
duplicate items — indeed it never propagates any exception at all: a
broken navigation session ends the run early but is caught and logged
rather than surfaced — and the session resource is released by the
`finally` block on every exit path, faulting or not. -/
theorem c5_never_raises_driver_released (env : Env) (m : Nat) :
    (crawl_musinsa env m).raised = false ∧
    (crawl_musinsa env m).driverReleased = true := by
  unfold crawl_musinsa
  rcases h : crawl_body env m with ⟨s, b⟩ | s | s <;> exact ⟨rfl, rfl⟩

/-- C10: every exception raised after driver setup (page-load or wait
failure, or a mid-run session crash) is caught and not re-raised; the call
returns exactly the items the loop state had collected when the run ended
— on a faulted run, the items collected before the fault — and on that
exceptional path the per-category JSON file is not written. -/
theorem c10_fault_swallowed_partial_return (env : Env) (m : Nat) :
    (crawl_musinsa env m).raised = false ∧
    (crawl_musinsa env m).products = ((crawl_body env m).state).core.products ∧
    ((crawl_musinsa env m).outcome = Outcome.faulted →
      (crawl_musinsa env m).fileWritten = false) := by
  unfold crawl_musinsa
  rcases h : crawl_body env m with ⟨s, b⟩ | s | s
  · refine ⟨rfl, rfl, ?_⟩
    intro hc
    exfalso
    revert hc
    cases b <;> simp
  · exact ⟨rfl, rfl, fun _ => rfl⟩
  · exact ⟨rfl, rfl, fun _ => rfl⟩

/-- Witness for C10 on a session that crashes at its second scan, after two
items were already collected. -/
theorem c10_fault_swallowed_partial_return_witness :
    (crawl_musinsa envMidFault 5).raised = false ∧
    (crawl_musinsa envMidFault 5).products =
      ((crawl_body envMidFault 5).state).core.products ∧
    (crawl_musinsa envMidFault 5).fileWritten = false :=
  ⟨(c10_fault_swallowed_partial_return envMidFault 5).1,
   (c10_fault_swallowed_partial_return envMidFault 5).2.1,
   (c10_fault_swallowed_partial_return envMidFault 5).2.2 (by decide)⟩

end FashionSmartSearch
